import Mathlib

/-!
Verification of `src/nextgen/bcbio/utils.py` (bcbb pipeline utilities).

The Python module is embedded shallowly:

* `cpmap` is a `@contextlib.contextmanager`.  We model one complete run of
  the context manager (entry, yield of the mapper, the caller's body, exit)
  as a pure function `cpmapRun` producing the list of observable effects
  together with the exception, if any, that propagates out of the `with`
  block.  Python's generator-based context-manager semantics are encoded
  directly: code after `yield` runs only when the body completed normally,
  unless the `yield` sits inside `try/finally` (which `cpmap` does NOT use,
  while `curdir_tmpdir`, `chdir` and `tmpfile` do).
* `itertools.imap` (the sequential mapper) is modelled by `imap`, a map that
  threads an explicit state so that the order of the mapped function's side
  effects is observable.
* Filesystem-touching helpers (`safe_makedir`, `memoize_outfile`,
  `save_diskspace`) are modelled as pure functions over oracle observations
  of the filesystem (existence, node kind, size, directory-creation
  outcome), exactly mirroring the branching of the Python code.
* `os.path.splitext` and `os.path.join` are translated from CPython's
  `posixpath` implementation.
-/

set_option autoImplicit false

namespace BcbioUtils

/-- A Python value passed as the `cores` argument of `cpmap`: either an
integer or a string (e.g. the cluster sentinel string). -/
inductive PyVal where
  | int (n : Int)
  | str (s : String)
  deriving DecidableEq, Repr

/-- Exceptions that the modelled code can raise or let propagate. -/
inductive Exn where
  /-- `raise NotImplementedError(msg)` -/
  | notImplementedError (msg : String)
  /-- `raise ImportError(msg)` -/
  | importError (msg : String)
  /-- `ValueError`, e.g. from `int()` on an unparseable string or from
  `multiprocessing.Pool` with fewer than one process -/
  | valueError
  /-- the exception raised by the caller's body inside a `with` scope -/
  | bodyError
  /-- `AssertionError` from a failed `assert` -/
  | assertionError
  /-- `OSError` from `os.makedirs` -/
  | oserror
  /-- `KeyError` from a `dict[...]` lookup -/
  | keyError
  deriving DecidableEq, Repr

/-- Which map-compatible callable `cpmap` yields. -/
inductive MapperKind where
  /-- `itertools.imap`: the sequential lazy mapper -/
  | seqIMap
  /-- `pool.imap`: the multiprocessing pool's lazy order-preserving mapper -/
  | poolIMap
  deriving DecidableEq, Repr

/-- Observable effects of one run of the `cpmap` context manager. -/
inductive Eff where
  /-- the global monkey-patch `IMapIterator.next = wrapper(IMapIterator.next)` -/
  | patchIMapNext
  /-- `pool = multiprocessing.Pool(int(cores))` -/
  | createPool (n : Int)
  /-- the generator yields a mapper to the `with` body -/
  | yieldMapper (m : MapperKind)
  /-- the caller's body executes -/
  | runBody
  /-- `pool.terminate()` -/
  | terminatePool
  deriving DecidableEq, Repr

/-- Decimal digit parse: `some` of the value when the (nonempty) character
list is all digits, `none` otherwise. -/
def parseDigits (cs : List Char) : Option Nat :=
  if cs = [] then none
  else if cs.all (fun c => c.isDigit) then
    some (cs.foldl (fun n c => n * 10 + (c.toNat - 48)) 0)
  else none

/-- CPython's `int()` on a string: surrounding spaces are ignored, an
optional single sign precedes a nonempty run of decimal digits; anything
else raises `ValueError`. -/
def pyIntStr (s : String) : Option Int :=
  let cs := ((s.data.dropWhile (fun c => c = ' ')).reverse.dropWhile
    (fun c => c = ' ')).reverse
  match cs with
  | '-' :: rest => (parseDigits rest).map (fun n => -(n : Int))
  | '+' :: rest => (parseDigits rest).map (fun n => (n : Int))
  | _ => (parseDigits cs).map (fun n => (n : Int))

/-- Python's `int()` applied to a `PyVal`: identity on integers, decimal
parse on strings (raising `ValueError` when unparseable). -/
def pyInt : PyVal → Except Exn Int
  | .int n => .ok n
  | .str s =>
    match pyIntStr s with
    | some n => .ok n
    | none => .error .valueError

/-- One complete run of the `cpmap(cores, ipython)` context manager.

Arguments: the `cores` and `ipython` arguments, whether the
`multiprocessing` module imported successfully (`mpAvail`), and whether the
caller's body raises an exception (`bodyRaises`).  Returns the trace of
effects and the exception (if any) propagating out of the `with` statement.

Faithful to the source: the ipython/cluster branch raises
`NotImplementedError("Not working yet")` before anything else (the client
construction after the `raise` is dead code); `int(cores) == 1` yields
`itertools.imap` and nothing runs after the yield; otherwise the
`multiprocessing is None` check, the `IMapIterator.next` patch and
`multiprocessing.Pool(int(cores))` happen before the yield, and
`pool.terminate()` stands after the yield with NO `try/finally`, so it runs
only when the body completed normally. -/
def cpmapRun (cores : PyVal) (ipython : Bool) (mpAvail : Bool)
    (bodyRaises : Bool) : List Eff × Option Exn :=
  if ipython = true ∨ cores = PyVal.str "ipython" then
    ([], some (.notImplementedError "Not working yet"))
  else
    match pyInt cores with
    | .error e => ([], some e)
    | .ok n =>
      if n = 1 then
        ([.yieldMapper .seqIMap, .runBody],
         if bodyRaises = true then some .bodyError else none)
      else if mpAvail = false then
        ([], some (.importError "multiprocessing not available"))
      else if n < 1 then
        ([.patchIMapNext], some .valueError)
      else if bodyRaises = true then
        ([.patchIMapNext, .createPool n, .yieldMapper .poolIMap, .runBody],
         some .bodyError)
      else
        ([.patchIMapNext, .createPool n, .yieldMapper .poolIMap, .runBody,
          .terminatePool], none)

/-- Model of `itertools.imap f xs`: maps `f` over the list one element at a
time, in input order.  The mapped function carries an explicit state `σ` so
that the order of its side effects is part of the result. -/
def imap {σ α β : Type} (f : σ → α → σ × β) : σ → List α → σ × List β
  | s, [] => (s, [])
  | s, x :: xs =>
    let r := f s x
    let rest := imap f r.1 xs
    (rest.1, r.2 :: rest.2)

/-- What occupies a filesystem path: nothing, a non-directory file, or a
directory. -/
inductive FNode where
  | nofile
  | file
  | dir
  deriving DecidableEq, Repr

/-- One run of `safe_makedir(dname)`, modelled over oracle observations of
the filesystem: `before` is what `os.path.exists` sees at the path when the
function starts, `mkOk` is whether `os.makedirs` succeeds (it raises
`OSError` otherwise, e.g. when a concurrent creator won the race), and
`isdirAfter` is what `os.path.isdir` reports after such a failure.  Returns
the exception propagating out of the call, or `none` on success.

Faithful to the source: the body runs only when `os.path.exists` is false;
`os.makedirs` failures are caught as `OSError` and answered by
`assert os.path.isdir(dname)`, which raises `AssertionError` (not the
original `OSError`) when the path is not then a directory. -/
def safe_makedir (before : FNode) (mkOk : Bool) (isdirAfter : Bool) :
    Option Exn :=
  if before = FNode.nofile then
    if mkOk = true then none
    else if isdirAfter = true then none
    else some .assertionError
  else none

/-- Python's `str.rfind`: index of the last occurrence of `c` in `l`, or
`-1` when absent. -/
def rfind (c : Char) (l : List Char) : Int :=
  match l.reverse.findIdx? (fun x => x = c) with
  | some i => (l.length : Int) - 1 - i
  | none => -1

/-- CPython `posixpath.splitext` on a list of characters (`sep = '/'`,
`extsep = '.'`, no `altsep`): split at the last dot lying strictly after
the last slash, except that a run of leading dots of the basename never
starts an extension. -/
def splitextList (p : List Char) : List Char × List Char :=
  let sepIndex := rfind '/' p
  let dotIndex := rfind '.' p
  if sepIndex < dotIndex then
    let fIdx := (sepIndex + 1).toNat
    let dIdx := dotIndex.toNat
    if ((p.drop fIdx).take (dIdx - fIdx)).any (fun c => !(c = '.' : Bool)) then
      (p.take dIdx, p.drop dIdx)
    else (p, [])
  else (p, [])

/-- `os.path.splitext` on strings. -/
def splitext (p : String) : String × String :=
  (String.mk (splitextList p.data).1, String.mk (splitextList p.data).2)

/-- One call of a function wrapped by `memoize_outfile(ext)`.  `args` holds
the positional string arguments and `kwargsInFile` the `in_file` keyword
argument, if present; `fs` maps a path to `some size` when the path exists
and `none` otherwise (so `os.path.exists` is `(fs p).isSome` and
`os.path.getsize` is only consulted when the path exists, mirroring the
short-circuit in the source).  Returns `(invoked, out_file)`: whether the
wrapped function was invoked, and the path the call returns; `KeyError`
when there is no positional argument and no `in_file` keyword. -/
def memoize_outfile (ext : String) (args : List String)
    (kwargsInFile : Option String) (fs : String → Option Nat) :
    Except Exn (Bool × String) :=
  match (match args with | a :: _ => some a | [] => kwargsInFile) with
  | none => .error .keyError
  | some in_file =>
    let out_file := (splitext in_file).1 ++ ext
    let invoked :=
      match fs out_file with
      | none => true
      | some sz => sz == 0
    .ok (invoked, out_file)

/-- Python's `str.startswith`. -/
def pyStartsWith (s pre : String) : Bool :=
  pre.data.isPrefixOf s.data

/-- Python's `str.endswith`. -/
def pyEndsWith (s suf : String) : Bool :=
  suf.data.isSuffixOf s.data

/-- CPython `posixpath.join` for two components: the second wins when
absolute; otherwise it is appended, inserting `/` unless the first is
empty or already ends in `/`. -/
def pathJoin (a b : String) : String :=
  if pyStartsWith b "/" = true then b
  else if a = "" ∨ pyEndsWith a "/" = true then a ++ b
  else a ++ "/" ++ b

/-- Observable filesystem effects of the scoped helpers `curdir_tmpdir`,
`chdir` and `tmpfile`. -/
inductive FsEff where
  /-- a call to `safe_makedir p` -/
  | safeMakedirEff (p : String)
  /-- `tempfile.mkdtemp(dir=base)` returning `tmp` -/
  | mkdtempEff (base tmp : String)
  /-- the caller's body executes -/
  | runBodyEff
  /-- `shutil.rmtree p` (recursive removal of the tree rooted at `p`) -/
  | rmtreeEff (p : String)
  /-- `os.getcwd()` returning `cwd` -/
  | getcwdEff (cwd : String)
  /-- `os.chdir p` -/
  | osChdirEff (p : String)
  /-- `tempfile.mkstemp(...)` returning `(fd, fname)` -/
  | mkstempEff (fd : Nat) (fname : String)
  /-- `os.close fd` -/
  | closeFdEff (fd : Nat)
  /-- `os.remove p` -/
  | removeEff (p : String)
  deriving DecidableEq, Repr

/-- One run of the `curdir_tmpdir()` context manager.  `cwd` is what
`os.getcwd()` returns and `tmpName` the fresh name component chosen by
`tempfile.mkdtemp` (nonempty, never absolute); `bodyRaises` is whether the
caller's body raises.  The `yield` sits inside `try/finally`, so
`shutil.rmtree(tmp_dir)` runs on both exit paths and a body exception then
propagates. -/
def curdir_tmpdir_run (cwd tmpName : String) (bodyRaises : Bool) :
    List FsEff × Option Exn :=
  let tmp_dir_base := pathJoin cwd "tmp"
  let tmp_dir := pathJoin tmp_dir_base tmpName
  ([.safeMakedirEff tmp_dir_base, .mkdtempEff tmp_dir_base tmp_dir,
    .safeMakedirEff tmp_dir, .runBodyEff, .rmtreeEff tmp_dir],
   if bodyRaises = true then some .bodyError else none)

/-- One run of the `chdir(new_dir)` context manager.  `curDir` is what
`os.getcwd()` returns on entry.  The `yield` sits inside `try/finally`, so
`os.chdir(cur_dir)` runs on both exit paths. -/
def chdir_run (curDir newDir : String) (bodyRaises : Bool) :
    List FsEff × Option Exn :=
  ([.getcwdEff curDir, .safeMakedirEff newDir, .osChdirEff newDir,
    .runBodyEff, .osChdirEff curDir],
   if bodyRaises = true then some .bodyError else none)

/-- One run of the `tmpfile(*args, **kwargs)` context manager.  `fd` and
`fname` are what `tempfile.mkstemp` returns; `stillPresent` is whether
`os.path.exists(fname)` holds at exit.  The `yield` sits inside
`try/finally`, so on both exit paths the descriptor is closed and the file
removed when still present. -/
def tmpfile_run (fd : Nat) (fname : String) (bodyRaises stillPresent : Bool) :
    List FsEff × Option Exn :=
  ([.mkstempEff fd fname, .runBodyEff, .closeFdEff fd] ++
    (if stillPresent = true then [.removeEff fname] else []),
   if bodyRaises = true then some .bodyError else none)

/-- The `"algorithm"` sub-dictionary of the pipeline configuration, as an
association list. -/
abbrev AlgDict := List (String × Bool)

/-- The pipeline configuration: a dictionary of named sub-dictionaries. -/
abbrev Config := List (String × AlgDict)

/-- Python's `dict.get(k, dflt)`: never raises. -/
def dictGet (d : AlgDict) (k : String) (dflt : Bool) : Bool :=
  match d.find? (fun kv => kv.1 == k) with
  | some kv => kv.2
  | none => dflt

/-- One run of `save_diskspace(fname, reason, config)`.  `contents` is the
file's contents before the call; the result is the file's contents after
it.  `config["algorithm"]` is a raising `dict[...]` lookup (`KeyError`
when absent), while `.get("save_diskspace", False)` defaults quietly. -/
def save_diskspace (contents reason : String) (config : Config) :
    Except Exn String :=
  match config.find? (fun kv => kv.1 == "algorithm") with
  | none => .error .keyError
  | some kv =>
    .ok (if dictGet kv.2 "save_diskspace" false = true then
           "File removed to save disk space: " ++ reason
         else contents)

/-!  Theorems.  -/

/-- `imap` applied to a function that logs each input before producing
`g x`: the final log extends the initial one by the inputs in input order,
and the outputs are exactly `map g` of the inputs. -/
theorem imap_log {α β : Type} (g : α → β) (xs : List α) (log : List α) :
    imap (fun s x => (s ++ [x], g x)) log xs = (log ++ xs, xs.map g) := by
  induction xs generalizing log with
  | nil => simp [imap]
  | cons x xs ih => simp [imap, ih]

/-- `splitextList` splits its input into a prefix and a suffix: gluing the
two components back together restores the original path. -/
theorem splitextList_recompose (p : List Char) :
    (splitextList p).1 ++ (splitextList p).2 = p := by
  simp only [splitextList]
  split_ifs <;> simp

/-- `splitext` splits its input into a root and an extension whose
concatenation is the original path. -/
theorem splitext_recompose (p : String) :
    (splitext p).1 ++ (splitext p).2 = p := by
  show String.mk ((splitextList p.data).1 ++ (splitextList p.data).2) = p
  rw [splitextList_recompose]

/-- C1 (counterexample): with cores = 2 and `multiprocessing` available,
when the caller's body raises inside the scope, `pool.terminate()` is NOT
invoked — the trace of the run contains no terminate effect — and the
body's exception propagates.  The `yield pool.imap` is not wrapped in
`try/finally`, so the code after it is skipped on an exceptional exit. -/
theorem cpmap_terminate_skipped_cex :
    Eff.terminatePool ∉ (cpmapRun (.int 2) false true true).1
  ∧ (cpmapRun (.int 2) false true true).2 = some Exn.bodyError := by
  decide

/-- C1 (amended): in multi-process mode (integer cores > 1, with
`multiprocessing` available) the worker pool is created on entry; on a
normal exit from the scope `pool.terminate()` is invoked (abandoning
pending work rather than awaiting it), but when the caller raises inside
the scope the terminate call is skipped and the exception propagates with
the pool left unterminated. -/
theorem cpmap_pool_lifecycle (n : Int) (h : 1 < n) :
    (∀ br : Bool, Eff.createPool n ∈ (cpmapRun (.int n) false true br).1)
  ∧ cpmapRun (.int n) false true false =
      ([.patchIMapNext, .createPool n, .yieldMapper .poolIMap, .runBody,
        .terminatePool], none)
  ∧ cpmapRun (.int n) false true true =
      ([.patchIMapNext, .createPool n, .yieldMapper .poolIMap, .runBody],
       some .bodyError) := by
  have h1 : ¬ (n = 1) := by omega
  have h2 : ¬ (n < 1) := by omega
  refine ⟨fun br => ?_, ?_, ?_⟩
  · cases br <;> simp [cpmapRun, pyInt, h1, h2]
  · simp [cpmapRun, pyInt, h1, h2]
  · simp [cpmapRun, pyInt, h1, h2]

/-- Witness for `cpmap_pool_lifecycle` at cores = 2. -/
theorem cpmap_pool_lifecycle_witness :
    (1 : Int) < 2
  ∧ cpmapRun (.int 2) false true false =
      ([.patchIMapNext, .createPool 2, .yieldMapper .poolIMap, .runBody,
        .terminatePool], none) :=
  ⟨by decide, (cpmap_pool_lifecycle 2 (by decide)).2.1⟩

/-- C3: whenever cluster mode is selected — the `ipython` flag is true, or
`cores` is the sentinel string `"ipython"` — the context manager raises
`NotImplementedError("Not working yet")` immediately: the effect trace is
empty, so no cluster client is constructed and no mapper is yielded,
regardless of `multiprocessing` availability or the body. -/
theorem cpmap_cluster_not_implemented :
    ∀ (cores : PyVal) (mp br : Bool),
      cpmapRun cores true mp br =
        ([], some (.notImplementedError "Not working yet"))
    ∧ cpmapRun (.str "ipython") false mp br =
        ([], some (.notImplementedError "Not working yet")) := by
  intro cores mp br
  exact ⟨by simp [cpmapRun], by simp [cpmapRun]⟩

/-- C2: whenever `int(cores)` equals 1 (and cluster mode is not selected),
the context manager yields `itertools.imap` as the mapper, runs the body,
and does nothing else; and the modelled `imap`, applied to a logging
function, maps `g` over `[x1..xn]` to `[g x1..g xn]` in input order with
the side-effect log extended by the inputs in exactly input order. -/
theorem cpmap_sequential (cores : PyVal) (mp br : Bool)
    (h : pyInt cores = .ok 1) :
    cpmapRun cores false mp br =
      ([.yieldMapper .seqIMap, .runBody],
       if br = true then some .bodyError else none)
  ∧ ∀ (α β : Type) (g : α → β) (xs log : List α),
      imap (fun s x => (s ++ [x], g x)) log xs = (log ++ xs, xs.map g) := by
  refine ⟨?_, fun α β g xs log => imap_log g xs log⟩
  cases cores with
  | int n =>
    have hn : n = 1 := by simpa [pyInt] using h
    subst hn
    simp [cpmapRun, pyInt]
  | str s =>
    have hs : ¬ (PyVal.str s = PyVal.str "ipython") := by
      intro he
      rw [he] at h
      rw [show pyInt (PyVal.str "ipython") = Except.error Exn.valueError
        from rfl] at h
      cases h
    simp [cpmapRun, hs, h]

/-- Witness for `cpmap_sequential` at cores = 1 with a raising body, plus a
concrete run of `imap` on `[10, 20, 30]`. -/
theorem cpmap_sequential_witness :
    pyInt (.int 1) = .ok 1
  ∧ cpmapRun (.int 1) false true true =
      ([.yieldMapper .seqIMap, .runBody], some .bodyError)
  ∧ imap (fun s x => (s ++ [x], x + 1)) ([] : List Nat) [10, 20, 30] =
      ([10, 20, 30], [11, 21, 31]) :=
  ⟨rfl, (cpmap_sequential (.int 1) true true rfl).1,
   (cpmap_sequential (.int 1) true true rfl).2 Nat Nat (fun x => x + 1)
     [10, 20, 30] []⟩

/-- Joining a nonempty, non-absolute component onto a base path yields a
path strictly longer than the base, hence a different path. -/
theorem pathJoin_ne_left (a b : String) (hb : 0 < b.length)
    (habs : pyStartsWith b "/" = false) : pathJoin a b ≠ a := by
  intro h
  have hlen := congrArg String.length h
  unfold pathJoin at hlen
  rw [habs] at hlen
  simp only [Bool.false_eq_true, if_false] at hlen
  split at hlen
  · rw [String.length_append] at hlen
    omega
  · rw [String.length_append, String.length_append] at hlen
    have : ("/" : String).length = 1 := rfl
    omega

/-- C4 (counterexample): when the path did not exist, `os.makedirs` failed,
and the path is still not a directory afterwards, `safe_makedir` raises
`AssertionError` (from `assert os.path.isdir(dname)`) — a different error
kind — rather than re-raising the original `OSError` from `makedirs`. -/
theorem safe_makedir_reraise_cex :
    safe_makedir FNode.nofile false false = some Exn.assertionError
  ∧ Exn.assertionError ≠ Exn.oserror := by
  decide

/-- C4 (amended): when the path did not exist and `os.makedirs` fails, the
helper returns successfully if the path is then a directory, and otherwise
raises `AssertionError` — not the original `OSError` that `makedirs`
raised. -/
theorem safe_makedir_race (isdirAfter : Bool) :
    safe_makedir FNode.nofile false isdirAfter =
      (if isdirAfter = true then none else some Exn.assertionError) := by
  cases isdirAfter <;> rfl

/-- C5 (counterexample): with a non-directory file already occupying the
path, `safe_makedir` returns successfully (no exception) instead of
failing: the initial `os.path.exists` check is true, so the whole body is
skipped. -/
theorem safe_makedir_file_cex :
    safe_makedir FNode.file true true = none := by
  decide

/-- C5 (amended): when anything — in particular a non-directory file —
already occupies the path, `safe_makedir` returns successfully without
attempting creation, because the initial existence check short-circuits
the body. -/
theorem safe_makedir_existing_skips (mkOk isdirAfter : Bool) :
    safe_makedir FNode.file mkOk isdirAfter = none
  ∧ safe_makedir FNode.dir mkOk isdirAfter = none := by
  cases mkOk <;> cases isdirAfter <;> exact ⟨rfl, rfl⟩

/-- C6: for a call whose input file is the first positional argument or the
`in_file` keyword argument, the wrapped call returns the output path — the
input path with its `splitext` extension replaced by `ext` (the second
conjunct witnesses that `splitext` really splits the input into root and
extension) — and the wrapped function is invoked exactly when that output
path does not exist or has size zero. -/
theorem memoize_outfile_spec (ext : String) (args : List String)
    (kw : Option String) (fs : String → Option Nat) (in_file : String)
    (h : args.head? = some in_file ∨ (args = [] ∧ kw = some in_file)) :
    memoize_outfile ext args kw fs =
      Except.ok (decide (fs ((splitext in_file).1 ++ ext) = none
                   ∨ fs ((splitext in_file).1 ++ ext) = some 0),
                 (splitext in_file).1 ++ ext)
  ∧ (splitext in_file).1 ++ (splitext in_file).2 = in_file := by
  constructor
  · rcases h with h | ⟨h1, h2⟩
    · cases args with
      | nil => simp at h
      | cons a rest =>
        simp only [List.head?_cons, Option.some_inj] at h
        subst h
        cases hfs : fs ((splitext a).1 ++ ext) with
        | none => simp [memoize_outfile, hfs]
        | some sz =>
          by_cases hz : sz = 0 <;> simp [memoize_outfile, hfs, hz]
    · subst h1
      subst h2
      cases hfs : fs ((splitext in_file).1 ++ ext) with
      | none => simp [memoize_outfile, hfs]
      | some sz =>
        by_cases hz : sz = 0 <;> simp [memoize_outfile, hfs, hz]
  · exact splitext_recompose in_file

/-- Witness for `memoize_outfile_spec`: extension `.out` on input `a.txt`
when `a.out` exists with size 5 — the wrapped function is not invoked and
the call returns `a.out`. -/
theorem memoize_outfile_spec_witness :
    memoize_outfile ".out" ["a.txt"] none
      (fun p => if p = "a.out" then some 5 else none) =
      Except.ok (false, "a.out") := by
  rw [(memoize_outfile_spec ".out" ["a.txt"] none
    (fun p => if p = "a.out" then some 5 else none) "a.txt" (Or.inl rfl)).1]
  rfl

/-- C7: with an `"algorithm"` section present in the configuration, when
its `save_diskspace` flag is false the file's contents are unchanged, and
when the flag is true the contents afterwards are exactly the placeholder
message with the reason embedded. -/
theorem save_diskspace_spec (contents reason : String) (alg : AlgDict)
    (rest : Config) :
    (dictGet alg "save_diskspace" false = false →
      save_diskspace contents reason (("algorithm", alg) :: rest) =
        .ok contents)
  ∧ (dictGet alg "save_diskspace" false = true →
      save_diskspace contents reason (("algorithm", alg) :: rest) =
        .ok ("File removed to save disk space: " ++ reason)) := by
  constructor <;> intro hflag <;> simp [save_diskspace, hflag]

/-- Witness for `save_diskspace_spec`: with the flag absent the contents
stay `"data"`; with the flag set the contents become the placeholder
embedding the reason `"done"`. -/
theorem save_diskspace_spec_witness :
    save_diskspace "data" "done" [("algorithm", [])] = .ok "data"
  ∧ save_diskspace "data" "done"
      [("algorithm", [("save_diskspace", true)])] =
      .ok ("File removed to save disk space: " ++ "done") :=
  ⟨(save_diskspace_spec "data" "done" [] []).1 rfl,
   (save_diskspace_spec "data" "done" [("save_diskspace", true)] []).2 rfl⟩

/-- C10: when the `"algorithm"` dictionary has no `save_diskspace` key at
all, `dict.get` defaults the flag to false and the file's contents are
returned unchanged — no missing-key error is raised. -/
theorem save_diskspace_missing_key (contents reason : String)
    (alg : AlgDict) (rest : Config)
    (h : alg.find? (fun kv => kv.1 == "save_diskspace") = none) :
    save_diskspace contents reason (("algorithm", alg) :: rest) =
      .ok contents := by
  simp [save_diskspace, dictGet, h]

/-- Witness for `save_diskspace_missing_key` at the empty algorithm
dictionary. -/
theorem save_diskspace_missing_key_witness :
    ([] : AlgDict).find? (fun kv => kv.1 == "save_diskspace") = none
  ∧ save_diskspace "data" "done" [("algorithm", [])] = .ok "data" :=
  ⟨rfl, save_diskspace_missing_key "data" "done" [] [] rfl⟩

/-- C8: each scoped helper releases its resource on both exit paths.  For
every choice of oracle observations and whether the body raises: the
`curdir_tmpdir` run ends with `shutil.rmtree` of the per-call temporary
directory; the `chdir` run ends with `os.chdir` back to the recorded
pre-scope directory; the `tmpfile` run closes the descriptor and removes
the file exactly when it is still present; and in each case a body
exception still propagates out of the scope. -/
theorem scoped_helpers_cleanup (cwd tmpName curDir newDir fname : String)
    (fd : Nat) (br present : Bool) :
    (curdir_tmpdir_run cwd tmpName br).1.getLast? =
      some (.rmtreeEff (pathJoin (pathJoin cwd "tmp") tmpName))
  ∧ (curdir_tmpdir_run cwd tmpName br).2 =
      (if br = true then some Exn.bodyError else none)
  ∧ (chdir_run curDir newDir br).1.getLast? = some (.osChdirEff curDir)
  ∧ (chdir_run curDir newDir br).2 =
      (if br = true then some Exn.bodyError else none)
  ∧ FsEff.closeFdEff fd ∈ (tmpfile_run fd fname br present).1
  ∧ ((FsEff.removeEff fname ∈ (tmpfile_run fd fname br present).1) ↔
      present = true)
  ∧ (tmpfile_run fd fname br present).2 =
      (if br = true then some Exn.bodyError else none) := by
  refine ⟨rfl, rfl, rfl, rfl, ?_, ?_, ?_⟩
  · cases present <;> simp [tmpfile_run]
  · cases present <;> simp [tmpfile_run]
  · cases present <;> rfl

/-- C9: `curdir_tmpdir` creates the `tmp` base directory under the current
working directory, and the only removal in the run targets the per-call
temporary directory, which is a strictly longer path than the base — so
the base `tmp` directory is left in place after the scope exits, on either
exit path. -/
theorem curdir_tmpdir_base_preserved (cwd tmpName : String) (br : Bool)
    (h1 : 0 < tmpName.length) (h2 : pyStartsWith tmpName "/" = false) :
    FsEff.safeMakedirEff (pathJoin cwd "tmp") ∈
      (curdir_tmpdir_run cwd tmpName br).1
  ∧ ∀ p : String, FsEff.rmtreeEff p ∈ (curdir_tmpdir_run cwd tmpName br).1 →
      p ≠ pathJoin cwd "tmp" := by
  constructor
  · simp [curdir_tmpdir_run]
  · intro p hp
    have hp2 : p = pathJoin (pathJoin cwd "tmp") tmpName := by
      simpa [curdir_tmpdir_run] using hp
    rw [hp2]
    exact pathJoin_ne_left (pathJoin cwd "tmp") tmpName h1 h2

/-- Witness for `curdir_tmpdir_base_preserved` at cwd `/w` and temporary
name `x`. -/
theorem curdir_tmpdir_base_preserved_witness :
    0 < ("x" : String).length
  ∧ pyStartsWith "x" "/" = false
  ∧ FsEff.safeMakedirEff (pathJoin "/w" "tmp") ∈
      (curdir_tmpdir_run "/w" "x" false).1 :=
  ⟨by decide, by decide,
   (curdir_tmpdir_base_preserved "/w" "x" false (by decide) (by decide)).1⟩

end BcbioUtils
